import Mathlib

/-!
Verification of the command-batching / output-demultiplexing client
(`omero_slurm_client/slurm_client.py`).

Python strings are modelled as `List Char`; the relevant fragments of the
Python standard library (`str.split`, `str.strip`, `str.isdigit`, `int`,
`str.format`, `dict` assignment, `dict.get`) are embedded as executable
Lean functions, and each method of `SlurmClient` that the claims touch is
translated over those primitives.
-/

set_option autoImplicit false

namespace Slurm

/-- Prefix test: `begins p l` is true iff `p` is a (leading) prefix of `l`.
Used to model scanning for a pattern occurrence at a fixed position. -/
def begins : List Char → List Char → Bool
  | [], _ => true
  | _ :: _, [] => false
  | a :: as, b :: bs => a == b && begins as bs

/-- Substring test: `hasSub pat l` is true iff `pat` occurs contiguously somewhere in `l`
(Python's `pat in l`). -/
def hasSub (pat : List Char) : List Char → Bool
  | [] => begins pat []
  | l@(_ :: rest) => begins pat l || hasSub pat rest

/-- Worker for `splitOnL`: Python's `str.split(sep)` for a non-empty literal
separator, scanning left to right for non-overlapping occurrences. `acc`
holds the (reversed) characters of the segment currently being built, and
`k` is the number of still-to-skip characters of a separator occurrence that
was already recognised (kept explicit so the recursion is structural). -/
def splitSkip (sep : List Char) : List Char → Nat → List Char → List (List Char)
  | [], _, acc => [acc.reverse]
  | c :: rest, 0, acc =>
    if begins sep (c :: rest) then
      acc.reverse :: splitSkip sep rest (sep.length - 1) []
    else
      splitSkip sep rest 0 (c :: acc)
  | _ :: rest, k + 1, acc => splitSkip sep rest k acc

/-- Python `text.split(sep)` for a non-empty literal separator.
Note `''.split(sep) = ['']`, matching Python. -/
def splitOnL (sep text : List Char) : List (List Char) :=
  splitSkip sep text 0 []

/-- Python `str.isspace` on the ASCII whitespace the client can meet. -/
def pyIsSpace (c : Char) : Bool :=
  c == ' ' || c == '\t' || c == '\n' || c == '\r' ||
    c == Char.ofNat 11 || c == Char.ofNat 12

/-- Python `text.strip()`: remove leading and trailing whitespace. -/
def strip (l : List Char) : List Char :=
  ((l.dropWhile pyIsSpace).reverse.dropWhile pyIsSpace).reverse

/-- Python `text.isdigit()` (ASCII digits): non-empty and all digits. -/
def isdigitL (l : List Char) : Bool :=
  !l.isEmpty && l.all Char.isDigit

/-- Python `int(text)` on a string of decimal digits. -/
def toIntL (l : List Char) : Int :=
  Int.ofNat (l.foldl (fun a c => a * 10 + (c.toNat - 48)) 0)

example : splitOnL "b".toList "abc".toList = ["a".toList, "c".toList] := by decide
example : splitOnL "\n".toList [] = [[]] := by decide
example : splitOnL "aa".toList "aaa".toList = [[], "a".toList] := by decide
example : strip "  x y\n".toList = "x y".toList := by decide
example : isdigitL (strip " 12345\n".toList) = true := by decide
example : toIntL "12345".toList = 12345 := by decide
example : hasSub "ab".toList "xxabx".toList = true := by decide
example : hasSub "ab".toList "xxa".toList = false := by decide

/-- The Python exceptions the modelled methods can raise. -/
inductive PyErr where
  | typeErr
  | keyErr
  | unboundLocalErr
  | sshErr
  deriving DecidableEq, Repr

instance {ε α : Type} [DecidableEq ε] [DecidableEq α] : DecidableEq (Except ε α) :=
  fun x y =>
    match x, y with
    | Except.error a, Except.error b =>
      if h : a = b then Decidable.isTrue (by simp [h])
      else Decidable.isFalse (by simp [h])
    | Except.ok a, Except.ok b =>
      if h : a = b then Decidable.isTrue (by simp [h])
      else Decidable.isFalse (by simp [h])
    | Except.error _, Except.ok _ => Decidable.isFalse (by simp)
    | Except.ok _, Except.error _ => Decidable.isFalse (by simp)

/-! ## Batch execution and output demultiplexing
(`run_commands` / `run_commands_split_out`, source lines 203-264) -/

/-- Model of `SlurmClient._OUT_SEP`, the sentinel `"--split--"` used to
split batched output (spelled as an explicit character list so proofs can
step through it; the `example` below ties it to the string form). -/
def _OUT_SEP : List Char := ['-', '-', 's', 'p', 'l', 'i', 't', '-', '-']

example : _OUT_SEP = "--split--".toList := by decide

/-- What `\" ; echo --split-- ; \"` contributes to the combined stdout between
two consecutive commands: the sentinel followed by the newline `echo` emits. -/
def sepEcho : List Char := _OUT_SEP ++ ['\n']

/-- Stdout of the compound command `sep.join(cmdlist)` built by
`run_commands` with the split separator, as the remote shell produces it:
the individual command outputs with `sepEcho` in between. The individual
outputs are uninterpreted parameters of the model (the remote commands
themselves are outside the program). -/
def joinedOut : List (List Char) → List Char
  | [] => []
  | [p] => p
  | p :: ps => p ++ sepEcho ++ joinedOut ps

/-- Model of `run_commands_split_out` (lines 237-264): the compound command is sent
over the channel; on `result.ok` its stdout is split on `_OUT_SEP` and the
pieces returned, otherwise an `SSHException` is raised. The channel result
is modelled by the list of per-command outputs `outs` plus the overall
success flag `ok`. -/
def run_commands_split_out (outs : List (List Char)) (ok : Bool) :
    Except PyErr (List (List Char)) :=
  if ok then
    Except.ok (splitOnL _OUT_SEP (joinedOut outs))
  else
    Except.error PyErr.sshErr

/-! ## Job-id extraction (`extract_job_id`, lines 422-425) -/

/-- The literal marker scanned for in the submission output. -/
def submittedMarker : List Char := "Submitted batch job".toList

/-- Model of `extract_job_id` (lines 422-425):
`next((int(s.strip()) for s in result.stdout.split("Submitted batch job")
if s.strip().isdigit()), -1)`. -/
def extract_job_id (stdout : List Char) : Int :=
  match (splitOnL submittedMarker stdout).find? (fun s => isdigitL (strip s)) with
  | some s => toIntL (strip s)
  | none => -1

/-- Context for `run_cellpose` (lines 392-420), which ends with
`return res, self.extract_job_id(res)`. `extract_job_id` is declared with
the single parameter `result` (no `self`), but `self.extract_job_id(res)`
is a bound-method call, so CPython passes two positional arguments. The
call protocol is modelled by `callArity`: a Python call raises `TypeError`
unless the number of positional arguments passed equals the number of
declared parameters. -/
def extract_job_id_params : Nat := 1

/-- Python positional-call protocol: arity check, then the call. -/
def callArity {α : Type} (params args : Nat) (f : List Char → α) (x : List Char) :
    Except PyErr α :=
  if args = params then Except.ok (f x) else Except.error PyErr.typeErr

/-- The tail of `run_cellpose` once the sbatch submission returned `res`
(i.e. the job-id extraction step has been reached): evaluate
`self.extract_job_id(res)` — a bound call passing `1 + 1` positional
arguments — and pair the result with `res`. -/
def run_cellpose (res : List Char) : Except PyErr (List Char × Int) :=
  (callArity extract_job_id_params (1 + 1) extract_job_id res).map
    (fun jid => (res, jid))

/-! ## Progress extraction (`get_active_job_progress`, lines 176-201) -/

/-- Model of `re.findall("\\d+%", text)`: the non-overlapping matches of "a run of
digits followed by a percent sign", scanned left to right. `run` is the
(reversed) digit run currently open. For this pattern a match at a position
exists iff the maximal digit run starting there is non-empty and followed
by `%`, so the scan below is faithful to the regex. -/
def findPctGo : List Char → List Char → List (List Char)
  | [], _ => []
  | c :: rest, run =>
    if c.isDigit then
      findPctGo rest (c :: run)
    else if c == '%' && !run.isEmpty then
      (run.reverse ++ ['%']) :: findPctGo rest []
    else
      findPctGo rest []

/-- Model of `re.findall` for the default progress pattern `\\d+%`. -/
def findPercent (text : List Char) : List (List Char) :=
  findPctGo text []

/-- Model of `get_active_job_progress` (lines 176-201) on the tail-command output
`stdout`: `latest_progress = re.findall(pattern, result.stdout)[-1]` inside
a `try` whose `except` only prints; the final
`return f"Progress: {latest_progress}\n"` is outside the `try`, so when no
match exists `latest_progress` was never assigned and the `return`
statement raises `UnboundLocalError`. -/
def get_active_job_progress (stdout : List Char) : Except PyErr (List Char) :=
  match (findPercent stdout).getLast? with
  | some m => Except.ok ("Progress: ".toList ++ m ++ ['\n'])
  | none => Except.error PyErr.unboundLocalErr

/-! ## Job listing (`list_all_jobs` / `get_jobs_info_command`, lines 302-344) -/

/-- Model of `list_all_jobs` (lines 302-318) on the `sacct` output `stdout`:
`job_list = result.stdout.strip().split('\n'); job_list.reverse()`. -/
def list_all_jobs (stdout : List Char) : List (List Char) :=
  (splitOnL ['\n'] (strip stdout)).reverse

/-- A piece of a Python format string: literal text or a named placeholder. -/
inductive Tok where
  | lit : List Char → Tok
  | ph : String → Tok
  deriving DecidableEq

/-- Python `str.format` with keyword arguments over a parsed template:
each placeholder is looked up in the argument map; a placeholder with no
supplied value raises `KeyError` (the spec's `MissingParameterError`) and
no output string is produced. -/
def formatT (toks : List Tok) (m : List (String × List Char)) :
    Except PyErr (List Char) :=
  match toks with
  | [] => Except.ok []
  | Tok.lit s :: rest => (formatT rest m).map (fun t => s ++ t)
  | Tok.ph n :: rest =>
    match m.lookup n with
    | some v => (formatT rest m).map (fun t => v ++ t)
    | none => Except.error PyErr.keyErr

/-- Model of `SlurmClient._ALL_JOBS_CMD`, parsed into literals and placeholders:
`"sacct --starttime {start_time} --endtime {end_time} --state {states}
-o {columns} -n -X "`. -/
def _ALL_JOBS_CMD : List Tok :=
  [Tok.lit "sacct --starttime ".toList, Tok.ph "start_time",
   Tok.lit " --endtime ".toList, Tok.ph "end_time",
   Tok.lit " --state ".toList, Tok.ph "states",
   Tok.lit " -o ".toList, Tok.ph "columns",
   Tok.lit " -n -X ".toList]

/-- Model of `get_jobs_info_command` (lines 320-344): formats `_ALL_JOBS_CMD` with
the four keyword arguments. -/
def get_jobs_info_command (start_time end_time columns states : List Char) :
    Except PyErr (List Char) :=
  formatT _ALL_JOBS_CMD
    [("start_time", start_time), ("end_time", end_time),
     ("states", states), ("columns", columns)]

/-! ## Model-registry construction (`from_config`, lines 133-150) -/

/-- Suffix test: `endsL sfx l` is Python's `l.endswith(sfx)`. -/
def endsL (sfx l : List Char) : Bool :=
  begins sfx.reverse l.reverse

/-- Python `k[:-n]` for `0 < n ≤ len(k)`: drop the last `n` characters. -/
def peel (l : List Char) (n : Nat) : List Char :=
  l.take (l.length - n)

/-- Python `d[k] = v` on a dict modelled as an insertion-ordered
association list: replace in place if the key is present, else append. -/
def dictSet (d : List (List Char × List Char)) (k v : List Char) :
    List (List Char × List Char) :=
  if (d.lookup k).isSome then
    d.map (fun kv => if kv.1 = k then (k, v) else kv)
  else
    d ++ [(k, v)]

/-- The four registries `from_config` populates from the `MODELS` section. -/
structure ModelMaps where
  paths : List (List Char × List Char)
  repos : List (List Char × List Char)
  images : List (List Char × List Char)
  jobs : List (List Char × List Char)
  deriving DecidableEq

def sfxRepo : List Char := "_repo".toList
def sfxImage : List Char := "_image".toList
def sfxJob : List Char := "_job".toList

/-- The body of the `for k, v in models_dict.items()` loop of `from_config`
(lines 139-150): route one configuration item into exactly one registry by
suffix, stripping the suffix for `_repo`/`_image`/`_job` keys. -/
def processModelItem (ms : ModelMaps) (kv : List Char × List Char) : ModelMaps :=
  if endsL sfxRepo kv.1 then
    { ms with repos := dictSet ms.repos (peel kv.1 sfxRepo.length) kv.2 }
  else if endsL sfxImage kv.1 then
    { ms with images := dictSet ms.images (peel kv.1 sfxImage.length) kv.2 }
  else if endsL sfxJob kv.1 then
    { ms with jobs := dictSet ms.jobs (peel kv.1 sfxJob.length) kv.2 }
  else
    { ms with paths := dictSet ms.paths kv.1 kv.2 }

/-- The registry-splitting part of `from_config` (lines 133-150), over the
items of the `MODELS` section. -/
def from_config_models (items : List (List Char × List Char)) : ModelMaps :=
  items.foldl processModelItem ⟨[], [], [], []⟩

/-- Items of the `MODELS` section that `from_config` routes to the
repository registry: exactly the keys ending in `_repo`, suffix stripped. -/
def selRepo (items : List (List Char × List Char)) :
    List (List Char × List Char) :=
  items.filterMap (fun kv =>
    if endsL sfxRepo kv.1 then some (peel kv.1 sfxRepo.length, kv.2)
    else none)

/-- Items routed to the container-image registry: keys not ending in
`_repo` but ending in `_image`, suffix stripped. -/
def selImage (items : List (List Char × List Char)) :
    List (List Char × List Char) :=
  items.filterMap (fun kv =>
    if endsL sfxRepo kv.1 then none
    else if endsL sfxImage kv.1 then some (peel kv.1 sfxImage.length, kv.2)
    else none)

/-- Items routed to the job-script registry: keys ending in `_job` (and in
neither of the previous suffixes), suffix stripped. -/
def selJob (items : List (List Char × List Char)) :
    List (List Char × List Char) :=
  items.filterMap (fun kv =>
    if endsL sfxRepo kv.1 then none
    else if endsL sfxImage kv.1 then none
    else if endsL sfxJob kv.1 then some (peel kv.1 sfxJob.length, kv.2)
    else none)

/-- Items routed to the image-path registry: every key with none of the
three suffixes, unchanged. -/
def selPath (items : List (List Char × List Char)) :
    List (List Char × List Char) :=
  items.filterMap (fun kv =>
    if endsL sfxRepo kv.1 then none
    else if endsL sfxImage kv.1 then none
    else if endsL sfxJob kv.1 then none
    else some kv)

/-- Builds a Python dict by performing the given assignments in order,
starting from `d`. -/
def buildDictFrom (d : List (List Char × List Char)) :
    List (List Char × List Char) → List (List Char × List Char) :=
  List.foldl (fun d kv => dictSet d kv.1 kv.2) d

/-- The `from_config` loop, started from an arbitrary registry state,
factors into the four suffix-selected assignment sequences. -/
theorem from_config_fold (items : List (List Char × List Char)) :
    ∀ ms : ModelMaps,
      items.foldl processModelItem ms =
        ⟨buildDictFrom ms.paths (selPath items),
         buildDictFrom ms.repos (selRepo items),
         buildDictFrom ms.images (selImage items),
         buildDictFrom ms.jobs (selJob items)⟩ := by
  induction items with
  | nil => intro ms; rfl
  | cons kv rest ih =>
    intro ms
    rw [List.foldl_cons, ih]
    rcases Bool.eq_false_or_eq_true (endsL sfxRepo kv.1) with h1 | h1 <;>
      rcases Bool.eq_false_or_eq_true (endsL sfxImage kv.1) with h2 | h2 <;>
        rcases Bool.eq_false_or_eq_true (endsL sfxJob kv.1) with h3 | h3 <;>
          simp [processModelItem, selPath, selRepo, selImage, selJob,
            buildDictFrom, List.filterMap_cons, h1, h2, h3]

/-! ## Submission command construction (`get_cellpose_command`, lines 491-531) -/

def _DEFAULT_SLURM_DATA_PATH : List Char := "my-scratch/data".toList
def _DEFAULT_SLURM_IMAGES_PATH : List Char :=
  "my-scratch/singularity_images/workflows".toList
def _DEFAULT_SLURM_GIT_SCRIPT_PATH : List Char := "slurm-scripts".toList

/-- Python `{**a, **b}`: the first dict updated by the second. -/
def mergeDicts (a b : List (List Char × List Char)) :
    List (List Char × List Char) :=
  b.foldl (fun d kv => dictSet d kv.1 kv.2) a

/-- Model of `get_cellpose_command` (lines 491-531). The client state enters through
`slurm_data_path`, `slurm_images_path` and `slurm_script_path`; the numeric
parameters (`nuc_channel`, `prob_threshold`, `cell_diameter`) only reach the
environment through f-string interpolation, so they are modelled by their
rendered strings. The Python defaults `model="cellpose"` and
`job_script="cellpose.sh"` are passed explicitly at use sites here.
Returns the `(sbatch_cmd, env)` pair. -/
def get_cellpose_command
    (slurm_data_path slurm_images_path slurm_script_path : List Char)
    (image_version input_data cp_model nuc_channel prob_threshold
      cell_diameter : List Char)
    (email time : Option (List Char))
    (model job_script : List Char) :
    List Char × List (List Char × List Char) :=
  let sbatch_env : List (List Char × List Char) :=
    [("DATA_PATH".toList, slurm_data_path ++ '/' :: input_data),
     ("IMAGE_PATH".toList, slurm_images_path ++ '/' :: model),
     ("IMAGE_VERSION".toList, image_version)]
  let cellpose_env : List (List Char × List Char) :=
    [("DIAMETER".toList, cell_diameter),
     ("PROB_THRESHOLD".toList, prob_threshold),
     ("NUC_CHANNEL".toList, nuc_channel),
     ("CP_MODEL".toList, cp_model),
     ("USE_GPU".toList, "true".toList)]
  let env := mergeDicts sbatch_env cellpose_env
  let email_param := match email with
    | none => []
    | some e => " --mail-user=".toList ++ e
  let time_param := match time with
    | none => []
    | some t => " --time=".toList ++ t
  let job_param := time_param ++ email_param
  let sbatch_cmd := "sbatch".toList ++ job_param ++
    " --output=omero-%4j.log ".toList ++ slurm_script_path ++
    "/jobs/".toList ++ job_script
  (sbatch_cmd, env)

/-! ## Version/data queries (`get_image_versions_and_data_files`, lines 618-644) -/

/-- Python f-string / `str.format` interpolation of an `Optional` value:
`None` renders as the four characters `None`. -/
def pyRepr : Option (List Char) → List Char
  | some s => s
  | none => "None".toList

/-- Model of `SlurmClient._VERSION_CMD` formatted with the given paths. -/
def _VERSION_CMD_fmt (slurm_images_path image_path : List Char) : List Char :=
  "ls -h ".toList ++ slurm_images_path ++ '/' :: image_path ++
    " | grep -oP '(?<=-)v.+(?=.simg)'".toList

/-- Model of `SlurmClient._DATA_CMD` formatted with the given data path. -/
def _DATA_CMD_fmt (slurm_data_path : List Char) : List Char :=
  "ls -h ".toList ++ slurm_data_path ++ " | grep -oP '.+(?=.zip)'".toList

/-- The command-construction phase of `get_image_versions_and_data_files`
(lines 618-644). `image_path = self.slurm_model_paths.get(model)` returns
`None` (it never raises `KeyError`, so the `except KeyError` branch that
would raise `ValueError` is dead code) and the commands are built
unconditionally, interpolating `None` into the version query when the
model is unknown. -/
def get_image_versions_and_data_files_cmds
    (slurm_model_paths : List (List Char × List Char))
    (slurm_images_path slurm_data_path model : List Char) : List (List Char) :=
  let image_path := pyRepr (slurm_model_paths.lookup model)
  [_VERSION_CMD_fmt slurm_images_path image_path,
   _DATA_CMD_fmt slurm_data_path]

example :
    extract_job_id "Submitted batch job 12345\n".toList = 12345 := by decide
example : extract_job_id "sbatch: error\n".toList = -1 := by decide
example : extract_job_id "12345".toList = 12345 := by decide
example :
    findPercent "...42%...99%".toList = ["42%".toList, "99%".toList] := by decide
example : list_all_jobs "".toList = [[]] := by decide
example :
    run_commands_split_out ["a\n".toList, "b\n".toList] true =
      Except.ok ["a\n".toList, "\nb\n".toList] := by decide

/-! ## Demultiplexing lemmas (towards C1) -/

/-- Leading prefixes survive appending on the right. -/
theorem begins_append_of (s l q : List Char) (h : begins s l = true) :
    begins s (l ++ q) = true := by
  induction s generalizing l with
  | nil => rfl
  | cons a as ih =>
    cases l with
    | nil => cases h
    | cons b bs =>
      simp only [begins, Bool.and_eq_true] at h
      simp only [List.cons_append, begins, Bool.and_eq_true]
      exact ⟨h.1, ih bs h.2⟩

/-- Every list begins with itself, whatever follows. -/
theorem begins_self_append (s r : List Char) : begins s (s ++ r) = true := by
  induction s with
  | nil => rfl
  | cons a as ih => simp [begins, ih]

/-- The prefix test only inspects the first `s.length` characters. -/
theorem begins_take (s l : List Char) (k : Nat) (hk : s.length ≤ k) :
    begins s (l.take k) = begins s l := by
  induction s generalizing l k with
  | nil => rfl
  | cons a as ih =>
    cases l with
    | nil => simp [List.take_nil]
    | cons b bs =>
      cases k with
      | zero => simp at hk
      | succ k2 =>
        simp only [List.take_succ_cons, begins]
        rw [ih bs k2 (by simpa using hk)]

/-- An occurrence starting at any position is a substring occurrence. -/
theorem hasSub_of_begins_drop (s l : List Char) (j : Nat)
    (h : begins s (l.drop j) = true) : hasSub s l = true := by
  induction l generalizing j with
  | nil =>
    rw [List.drop_nil] at h
    simpa [hasSub] using h
  | cons c rest ih =>
    cases j with
    | zero =>
      rw [List.drop_zero] at h
      simp [hasSub, h]
    | succ j2 =>
      rw [List.drop_succ_cons] at h
      simp [hasSub, ih j2 h]

/-- The empty pattern occurs in every text. -/
theorem hasSub_nil_pat (q : List Char) : hasSub ([] : List Char) q = true := by
  cases q <;> simp [hasSub, begins]

/-- Substring occurrences survive appending on the right. -/
theorem hasSub_append_left (s l q : List Char) (h : hasSub s l = true) :
    hasSub s (l ++ q) = true := by
  induction l with
  | nil =>
    cases s with
    | nil => exact hasSub_nil_pat q
    | cons a as => simp [hasSub, begins] at h
  | cons c rest ih =>
    simp only [hasSub, Bool.or_eq_true] at h
    rcases h with h | h
    · have h2 := begins_append_of s (c :: rest) q h
      rw [List.cons_append] at h2
      simp [hasSub, h2]
    · simp [hasSub, ih h]

/-- The scanner in skip mode consumes exactly the skipped characters. -/
theorem splitSkip_skip (sep : List Char) (xs : List Char) :
    ∀ ys acc, splitSkip sep (xs ++ ys) xs.length acc = splitSkip sep ys 0 acc := by
  induction xs with
  | nil => intro ys acc; rfl
  | cons x xs2 ih =>
    intro ys acc
    rw [List.cons_append]
    exact ih ys acc

/-- With no pattern occurrence in the text, the whole text is one segment. -/
theorem splitSkip_no_occ (sep : List Char) :
    ∀ l acc, hasSub sep l = false → splitSkip sep l 0 acc = [acc.reverse ++ l] := by
  intro l
  induction l with
  | nil => intro acc h; simp [splitSkip]
  | cons c rest ih =>
    intro acc h
    have h1 : begins sep (c :: rest) = false ∧ hasSub sep rest = false := by
      simpa [hasSub] using h
    simp only [splitSkip, h1.1, if_false]
    rw [ih (c :: acc) h1.2]
    simp

/-- Boundary step: at a separator occurrence the current segment is emitted
and scanning resumes right after the separator. -/
theorem splitSkip_boundary (sep : List Char) (hne : sep ≠ []) :
    ∀ rest acc, splitSkip sep (sep ++ rest) 0 acc =
      acc.reverse :: splitSkip sep rest 0 [] := by
  intro rest acc
  cases sep with
  | nil => exact absurd rfl hne
  | cons c ct =>
    have hb : begins (c :: ct) (c :: (ct ++ rest)) = true := by
      have h2 := begins_self_append (c :: ct) rest
      rwa [List.cons_append] at h2
    rw [List.cons_append]
    simp only [splitSkip, hb, if_true]
    have h3 := splitSkip_skip (c :: ct) ct rest []
    simpa using h3

/-- Characters at which no occurrence starts are moved into the current
segment unchanged. -/
theorem splitSkip_pass (sep : List Char) :
    ∀ (p tail acc : List Char),
      (∀ j, j < p.length → begins sep ((p ++ tail).drop j) = false) →
      splitSkip sep (p ++ tail) 0 acc = splitSkip sep tail 0 (p.reverse ++ acc) := by
  intro p
  induction p with
  | nil => intro tail acc _; simp
  | cons c p2 ih =>
    intro tail acc h
    have h0 : begins sep (c :: (p2 ++ tail)) = false := by
      have h1 := h 0 (by simp)
      simpa using h1
    rw [List.cons_append]
    simp only [splitSkip, h0, if_false]
    rw [ih tail (c :: acc) ?_]
    · simp
    · intro j hj
      have h2 := h (j + 1) (by simpa using Nat.succ_lt_succ hj)
      simpa using h2

/-- A command output is well-behaved for demultiplexing when the sentinel
does not occur in it even after extending it with a proper prefix of the
sentinel: this rules out occurrences lying wholly inside the output and
occurrences completed across the boundary into the echoed sentinel. -/
def goodSeg (p : List Char) : Bool :=
  !(hasSub _OUT_SEP (p ++ _OUT_SEP.take (_OUT_SEP.length - 1)))

/-- Well-behaved outputs in particular do not contain the sentinel. -/
theorem goodSeg_no_contain (p : List Char) (h : goodSeg p = true) :
    hasSub _OUT_SEP p = false := by
  cases hv : hasSub _OUT_SEP p with
  | false => rfl
  | true =>
    have h3 := hasSub_append_left _OUT_SEP p
      (_OUT_SEP.take (_OUT_SEP.length - 1)) hv
    simp [goodSeg, h3] at h

/-- Two extensions of `p` that agree on enough characters after `p` give
the same `take` window at any position inside `p`. -/
theorem take_drop_append_agree (p a b : List Char) (j n : Nat)
    (hj : j < p.length)
    (hab : a.take (n - (p.length - j)) = b.take (n - (p.length - j))) :
    ((p ++ a).drop j).take n = ((p ++ b).drop j).take n := by
  have h0 : j - p.length = 0 := by omega
  rw [List.drop_append_eq_append_drop, List.drop_append_eq_append_drop, h0,
    List.drop_zero, List.drop_zero, List.take_append_eq_append_take,
    List.take_append_eq_append_take, List.length_drop, hab]

/-- Under `goodSeg`, no sentinel occurrence starts strictly inside the
output part of `p ++ sentinel ++ '\n' :: R`. -/
theorem goodSeg_no_early (p R : List Char) (hg : goodSeg p = true) :
    ∀ j, j < p.length →
      begins _OUT_SEP ((p ++ (_OUT_SEP ++ '\n' :: R)).drop j) = false := by
  intro j hj
  cases hb : begins _OUT_SEP ((p ++ (_OUT_SEP ++ '\n' :: R)).drop j) with
  | false => rfl
  | true =>
    exfalso
    have hag : (_OUT_SEP ++ '\n' :: R).take (9 - (p.length - j)) =
        (_OUT_SEP.take 8).take (9 - (p.length - j)) := by
      rw [List.take_append_eq_append_take]
      have h9 : 9 - (p.length - j) - _OUT_SEP.length = 0 := by
        have hsl : _OUT_SEP.length = 9 := rfl
        omega
      rw [h9, List.take_zero, List.append_nil, List.take_take]
      have hmin : min (9 - (p.length - j)) 8 = 9 - (p.length - j) := by omega
      rw [hmin]
    have hkey : ((p ++ (_OUT_SEP ++ '\n' :: R)).drop j).take 9 =
        ((p ++ _OUT_SEP.take 8).drop j).take 9 :=
      take_drop_append_agree p _ _ j 9 hj hag
    have hb2 : begins _OUT_SEP ((p ++ _OUT_SEP.take 8).drop j) = true := by
      have e1 := begins_take _OUT_SEP ((p ++ (_OUT_SEP ++ '\n' :: R)).drop j)
        9 (by decide)
      have e2 := begins_take _OUT_SEP ((p ++ _OUT_SEP.take 8).drop j)
        9 (by decide)
      rw [← e2, ← hkey, e1]
      exact hb
    have hsub := hasSub_of_begins_drop _OUT_SEP (p ++ _OUT_SEP.take 8) j hb2
    simp only [goodSeg, Bool.not_eq_eq_eq_not, Bool.not_true] at hg
    rw [show _OUT_SEP.length - 1 = 8 from rfl] at hg
    rw [hg] at hsub
    exact Bool.false_ne_true hsub

/-- Expected demultiplexer output: the first command's output verbatim, and
every later command's output prefixed by the newline with which `echo`
terminated the preceding sentinel line. -/
def mapNl : List (List Char) → List (List Char)
  | [] => []
  | p :: ps => p :: ps.map (fun q => '\n' :: q)

/-- Prefixing a well-behaved output with the echoed newline keeps it
well-behaved (the sentinel does not start with a newline). -/
theorem goodSeg_cons_nl (q : List Char) (h : goodSeg q = true) :
    goodSeg ('\n' :: q) = true := by
  simp only [goodSeg, Bool.not_eq_eq_eq_not, Bool.not_true] at h ⊢
  rw [List.cons_append]
  have hb : begins _OUT_SEP
      ('\n' :: (q ++ _OUT_SEP.take (_OUT_SEP.length - 1))) = false := rfl
  simp [hasSub, hb, h]

/-- Demultiplexing the tail of a joined batch: every remaining output
carries the echoed newline in front. -/
theorem split_joined_nl (ps : List (List Char)) :
    ps ≠ [] → (∀ p ∈ ps, goodSeg p = true) →
    splitSkip _OUT_SEP ('\n' :: joinedOut ps) 0 [] =
      ps.map (fun q => '\n' :: q) := by
  induction ps with
  | nil => intro h _; exact absurd rfl h
  | cons q qs ih =>
    intro _ hg
    cases qs with
    | nil =>
      have hq : goodSeg ('\n' :: q) = true :=
        goodSeg_cons_nl q (hg q (by simp))
      have hnc : hasSub _OUT_SEP ('\n' :: q) = false :=
        goodSeg_no_contain _ hq
      show splitSkip _OUT_SEP ('\n' :: q) 0 [] = ['\n' :: q]
      rw [splitSkip_no_occ _OUT_SEP ('\n' :: q) [] hnc]
      rfl
    | cons q2 qs2 =>
      have hgq : goodSeg ('\n' :: q) = true :=
        goodSeg_cons_nl q (hg q (by simp))
      have hrw : ('\n' :: joinedOut (q :: q2 :: qs2)) =
          ('\n' :: q) ++ (_OUT_SEP ++ '\n' :: joinedOut (q2 :: qs2)) := by
        show ('\n' :: (q ++ sepEcho ++ joinedOut (q2 :: qs2))) = _
        simp [sepEcho, List.append_assoc]
      rw [hrw,
        splitSkip_pass _OUT_SEP ('\n' :: q) _ [] (goodSeg_no_early _ _ hgq),
        splitSkip_boundary _OUT_SEP (by decide),
        ih (by simp) (fun r hr => hg r (by simp [hr]))]
      simp

/-- Demultiplexing a joined batch of well-behaved outputs recovers exactly
the per-command outputs (newline-decorated after the first). -/
theorem split_joined (outs : List (List Char)) :
    outs ≠ [] → (∀ p ∈ outs, goodSeg p = true) →
    splitOnL _OUT_SEP (joinedOut outs) = mapNl outs := by
  intro hne hg
  cases outs with
  | nil => exact absurd rfl hne
  | cons p ps =>
    cases ps with
    | nil =>
      show splitSkip _OUT_SEP p 0 [] = [p]
      rw [splitSkip_no_occ _OUT_SEP p [] (goodSeg_no_contain p (hg p (by simp)))]
      rfl
    | cons q qs =>
      show splitSkip _OUT_SEP (joinedOut (p :: q :: qs)) 0 [] = _
      have hrw : joinedOut (p :: q :: qs) =
          p ++ (_OUT_SEP ++ '\n' :: joinedOut (q :: qs)) := by
        show p ++ sepEcho ++ joinedOut (q :: qs) = _
        simp [sepEcho, List.append_assoc]
      rw [hrw,
        splitSkip_pass _OUT_SEP p _ [] (goodSeg_no_early _ _ (hg p (by simp))),
        splitSkip_boundary _OUT_SEP (by decide),
        split_joined_nl (q :: qs) (by simp) (fun r hr => hg r (by simp [hr]))]
      simp [mapNl]

/-- Stripping ignores the decorating newline. -/
theorem strip_cons_nl (q : List Char) : strip ('\n' :: q) = strip q := by
  have h : pyIsSpace '\n' = true := rfl
  simp [strip, List.dropWhile_cons, h]

/-! ## Claim theorems -/

/-- C1, counterexample: a successful two-command batch whose outputs do not
contain the sentinel `--split--`, yet whose first returned segment is empty
instead of the first command's output: the output `"--split"` completes to
a sentinel occurrence across the boundary with the echoed separator, so the
demultiplexer splits at position 0 and segment 1 does not correspond to
command 1 (even after whitespace-trimming). -/
theorem c1_counterexample :
    hasSub _OUT_SEP "--split".toList = false ∧
    hasSub _OUT_SEP "x".toList = false ∧
    run_commands_split_out ["--split".toList, "x".toList] true =
      Except.ok [[], "split--\nx".toList] ∧
    strip ([] : List Char) ≠ strip "--split".toList := by decide

/-- C1 (amended): for every ordered list of N commands (N ≥ 1) executed in
split-output mode whose compound execution reports success, and whose
individual command outputs neither contain the sentinel token nor end in a
proper prefix of it that the echoed sentinel completes (condition
`goodSeg`), `run_commands_split_out` returns exactly N output segments, the
i-th segment corresponding to the output of the i-th command up to the
caller-side whitespace trim (the segments after the first carry the
newline with which `echo` terminated the sentinel line). -/
theorem c1_amended_split_out (outs : List (List Char)) (hne : outs ≠ [])
    (hg : ∀ p ∈ outs, goodSeg p = true) :
    ∃ segs, run_commands_split_out outs true = Except.ok segs ∧
      segs.length = outs.length ∧ segs.map strip = outs.map strip := by
  refine ⟨mapNl outs, ?_, ?_, ?_⟩
  · show Except.ok (splitOnL _OUT_SEP (joinedOut outs)) = _
    rw [split_joined outs hne hg]
  · cases outs with
    | nil => rfl
    | cons p ps => simp [mapNl]
  · cases outs with
    | nil => rfl
    | cons p ps =>
      have hmap : (ps.map (fun q => '\n' :: q)).map strip = ps.map strip := by
        rw [List.map_map]
        refine List.map_congr_left ?_
        intro q _
        exact strip_cons_nl q
      simp only [mapNl, List.map_cons, hmap]

/-- C1, witness: the amended theorem on a concrete two-command batch. -/
theorem c1_amended_split_out_witness :
    ∃ segs,
      run_commands_split_out ["v1.0\n".toList, "data1\n".toList] true =
        Except.ok segs ∧
      segs.length = (["v1.0\n".toList, "data1\n".toList] : List (List Char)).length ∧
      segs.map strip =
        (["v1.0\n".toList, "data1\n".toList] : List (List Char)).map strip :=
  c1_amended_split_out _ (by decide) (by decide)

/-- C2, counterexample: extraction takes the first marker-split segment
that strips to digits, so `"12345"` (which does not contain the marker at
all) yields `12345` rather than the sentinel `-1`, and
`"9\nSubmitted batch job 12345"` (which does contain the marker followed
by the numeric token `12345`) yields `9` rather than `12345`. -/
theorem c2_counterexample :
    hasSub submittedMarker "12345".toList = false ∧
    extract_job_id "12345".toList ≠ -1 ∧
    extract_job_id "9\nSubmitted batch job 12345".toList = 9 := by decide

/-- C2 (amended): job-id extraction splits the output on the literal
marker `"Submitted batch job"` (the piece before the first occurrence
included) and returns the integer value of the first piece that is purely
numeric after whitespace-stripping; the canonical submission output
`"Submitted batch job 12345\n"` therefore yields `12345`, and whenever no
piece strips to a numeric token — whether or not the marker occurs — the
sentinel `-1` is returned. -/
theorem c2_amended_extract_job_id :
    extract_job_id "Submitted batch job 12345\n".toList = 12345 ∧
    ∀ stdout : List Char,
      (∀ s ∈ splitOnL submittedMarker stdout, isdigitL (strip s) = false) →
      extract_job_id stdout = -1 := by
  refine ⟨by decide, ?_⟩
  intro stdout h
  have hnone : (splitOnL submittedMarker stdout).find?
      (fun s => isdigitL (strip s)) = none := by
    rw [List.find?_eq_none]
    intro s hs
    simp [h s hs]
  unfold extract_job_id
  rw [hnone]

/-- C2, witness: the amended theorem at a submission-failure output none of
whose marker-split pieces is numeric. -/
theorem c2_amended_extract_job_id_witness :
    extract_job_id "sbatch: error: invalid partition requested\n".toList = -1 :=
  c2_amended_extract_job_id.2 _ (by decide)

/-- C3: every call of `run_cellpose` that reaches the job-id extraction
step raises `TypeError` — the bound call `self.extract_job_id(res)` passes
two positional arguments to the one-parameter `extract_job_id` — and never
returns the promised `(result, job_id)` pair. -/
theorem c3_run_cellpose_raises_type_error (res : List Char) :
    run_cellpose res = Except.error PyErr.typeErr := rfl

/-- C4 (code bug, evaluation): progress extraction does return the last
match when one exists (`"...42%...99%"` gives `99%`), but on log text with
no digits-plus-percent match the `except` swallows the `IndexError`,
`latest_progress` is never assigned, and the `return` statement raises
`UnboundLocalError` instead of producing the neutral no-progress result
the claim states. -/
theorem c4_progress_no_match_raises :
    get_active_job_progress "...42%...99%".toList =
      Except.ok "Progress: 99%\n".toList ∧
    get_active_job_progress "starting up".toList =
      Except.error PyErr.unboundLocalErr := by decide

/-- C5, counterexample: on empty scheduler output `list_all_jobs` returns
the one-element list holding the empty string (Python
`''.split('\n') == ['']`), not the empty sequence the claim states. -/
theorem c5_counterexample :
    list_all_jobs [] = [[]] ∧ ([[]] : List (List Char)) ≠ [] := by decide

/-- C5 (amended): on empty or whitespace-only scheduler output
`list_all_jobs` does not raise and returns the one-element list containing
the empty string (so callers see one blank job id, not an empty list). -/
theorem c5_amended_empty_output (stdout : List Char)
    (h : strip stdout = []) : list_all_jobs stdout = [[]] := by
  unfold list_all_jobs
  rw [h]
  rfl

/-- C5, witness: the amended theorem at whitespace-only output. -/
theorem c5_amended_empty_output_witness :
    list_all_jobs "  \n ".toList = [[]] :=
  c5_amended_empty_output _ (by decide)

/-- C6: for every list of commands executed in split-output mode, if the
compound command as a whole reports non-success the operation raises the
channel-execution error (`SSHException` in the source) rather than
returning any segment list. -/
theorem c6_split_out_raises_on_failure (outs : List (List Char)) :
    run_commands_split_out outs false = Except.error PyErr.sshErr := rfl

/-- C7: rendering any command template against a substitution map that
lacks a required placeholder fails with `KeyError` (the spec's
`MissingParameterError`); no command string with a blank substituted for
the placeholder is ever produced. -/
theorem c7_missing_placeholder_raises (toks : List Tok)
    (m : List (String × List Char)) (n : String)
    (hmem : Tok.ph n ∈ toks) (hmiss : m.lookup n = none) :
    formatT toks m = Except.error PyErr.keyErr := by
  induction toks with
  | nil => cases hmem
  | cons t rest ih =>
    cases t with
    | lit s =>
      have hrest : Tok.ph n ∈ rest := by
        cases hmem with
        | tail _ h => exact h
      simp [formatT, ih hrest, Except.map]
    | ph n2 =>
      cases hlk : m.lookup n2 with
      | none => simp [formatT, hlk]
      | some v =>
        have hn : n2 ≠ n := by
          intro e
          rw [e, hmiss] at hlk
          cases hlk
        have hrest : Tok.ph n ∈ rest := by
          cases hmem with
          | head => exact absurd rfl hn
          | tail _ h => exact h
        simp [formatT, hlk, ih hrest, Except.map]

/-- C7, witness: formatting `_ALL_JOBS_CMD` with an empty argument map
(the `start_time` placeholder is required but unsupplied). -/
theorem c7_missing_placeholder_raises_witness :
    formatT _ALL_JOBS_CMD [] = Except.error PyErr.keyErr :=
  c7_missing_placeholder_raises _ _ "start_time" (by decide) rfl

/-- C8: splitting a flat `MODELS` section assigns every key to exactly one
of the four registries: the repository registry is built from precisely
the keys ending in `_repo` (suffix stripped), the container-image registry
from the remaining keys ending in `_image` (suffix stripped), the
job-script registry from the remaining keys ending in `_job` (suffix
stripped), and the image-path registry from every other key unchanged —
so each of the four attributes of a model is populated independently of
the other three. -/
theorem c8_models_config_routing (items : List (List Char × List Char)) :
    from_config_models items =
      ⟨buildDictFrom [] (selPath items), buildDictFrom [] (selRepo items),
       buildDictFrom [] (selImage items), buildDictFrom [] (selJob items)⟩ :=
  from_config_fold items ⟨[], [], [], []⟩

example :
    from_config_models
      [("cellpose".toList, "cellpose/".toList),
       ("cellpose_repo".toList, "https://github.com/x/y".toList),
       ("cellpose_job".toList, "jobs/cp.sh".toList),
       ("stardist_image".toList, "torecsys/stardist".toList)] =
    ⟨[("cellpose".toList, "cellpose/".toList)],
     [("cellpose".toList, "https://github.com/x/y".toList)],
     [("stardist".toList, "torecsys/stardist".toList)],
     [("cellpose".toList, "jobs/cp.sh".toList)]⟩ := by decide

/-- C9: submitting with `time="02:00:00"` and `email=None` renders an
sbatch command that contains the fragment `--time=02:00:00` and no
`--mail-user` fragment, for every choice of the workflow parameters (the
paths, model folder and job script are the source defaults). -/
theorem c9_time_rendered_no_mail_user
    (image_version input_data cp_model nuc_channel prob_threshold
      cell_diameter : List Char) :
    hasSub "--time=02:00:00".toList
        (get_cellpose_command _DEFAULT_SLURM_DATA_PATH
          _DEFAULT_SLURM_IMAGES_PATH _DEFAULT_SLURM_GIT_SCRIPT_PATH
          image_version input_data cp_model nuc_channel prob_threshold
          cell_diameter none (some "02:00:00".toList)
          "cellpose".toList "cellpose.sh".toList).1 = true ∧
    hasSub "--mail-user".toList
        (get_cellpose_command _DEFAULT_SLURM_DATA_PATH
          _DEFAULT_SLURM_IMAGES_PATH _DEFAULT_SLURM_GIT_SCRIPT_PATH
          image_version input_data cp_model nuc_channel prob_threshold
          cell_diameter none (some "02:00:00".toList)
          "cellpose".toList "cellpose.sh".toList).1 = false := by
  constructor <;> rfl

/-- C10 (code bug, evaluation): querying image versions and data files for
a workflow name with no registered model path does not fail — `dict.get`
returns `None` and never raises `KeyError`, so the guarding `except`
branch is dead — and the operation proceeds, interpolating the nonsense
path component `None` into the version-listing command. -/
theorem c10_unknown_model_builds_none_path :
    ([(("cellpose".toList : List Char), "cellpose".toList)].lookup
        "stardist".toList) = none ∧
    get_image_versions_and_data_files_cmds
        [("cellpose".toList, "cellpose".toList)]
        _DEFAULT_SLURM_IMAGES_PATH _DEFAULT_SLURM_DATA_PATH
        "stardist".toList =
      ["ls -h my-scratch/singularity_images/workflows/None | grep -oP '(?<=-)v.+(?=.simg)'".toList,
       "ls -h my-scratch/data | grep -oP '.+(?=.zip)'".toList] := by decide

end Slurm
